import Mathlib

/-!
Verification of the anchor-pinochio-security-template repository.

This file gives a shallow embedding, in Lean 4, of the instruction handlers
of the secure programs of the repository, and proves or refutes the frozen
claims about them.  Machine integers (`u64`, `u16`, `u8`) are modelled as
`Nat` together with explicit range bounds; Rust's `checked_add`,
`checked_sub` and `checked_mul` are modelled as `Option`-valued operations
that fail exactly when the mathematical result leaves the 64-bit range.
Account records become Lean structures; an instruction handler becomes a
pure function returning `Except ErrorCode NewState` — returning `.error`
models the Solana transaction aborting with that error code and every
account left unmutated (the all-or-nothing commit of the host runtime).

Public keys (32-byte addresses) are opaque identifiers for which only
equality is relevant; they are modelled by `Nat`, with `0` playing the role
of `Pubkey::default()`.
-/

/-- Addresses (Solana `Pubkey` / pinocchio `Address`): opaque identifiers
with decidable equality.  `0` is `Pubkey::default()`. -/
abbrev Addr := Nat

/-- Size of the unsigned 64-bit range: `u64::MAX + 1`. -/
def U64_MOD : Nat := 2 ^ 64

/-- Rust `u64::checked_add`: `some (a + b)` unless the sum leaves the
64-bit range. -/
def checkedAdd (a b : Nat) : Option Nat :=
  if a + b < U64_MOD then some (a + b) else none

/-- Rust `u64::checked_sub`: `some (a - b)` unless the subtraction would
underflow. -/
def checkedSub (a b : Nat) : Option Nat :=
  if b ≤ a then some (a - b) else none

/-- Rust `u64::checked_mul`: `some (a * b)` unless the product leaves the
64-bit range. -/
def checkedMul (a b : Nat) : Option Nat :=
  if a * b < U64_MOD then some (a * b) else none

instance {ε α : Type} [DecidableEq ε] [DecidableEq α] : DecidableEq (Except ε α) :=
  fun a b =>
    match a, b with
    | .ok x, .ok y =>
      if h : x = y then isTrue (by rw [h]) else isFalse (by intro hc; cases hc; exact h rfl)
    | .error e, .error f =>
      if h : e = f then isTrue (by rw [h]) else isFalse (by intro hc; cases hc; exact h rfl)
    | .ok _, .error _ => isFalse (by intro hc; cases hc)
    | .error _, .ok _ => isFalse (by intro hc; cases hc)

/-! ## Pattern 03: overflow-safe ledger
(`patterns/03-unsafe-arithmetic/programs/secure/src/lib.rs`) -/

namespace Arith

/-- Maximum single deposit: 1000 SOL in lamports (`MAX_DEPOSIT`). -/
def MAX_DEPOSIT : Nat := 1000000000000

/-- Maximum reward rate in basis points (`MAX_REWARD_RATE`). -/
def MAX_REWARD_RATE : Nat := 10000

/-- The `VaultState` account of the secure unsafe-arithmetic program. -/
structure VaultState where
  authority : Addr
  total_deposits : Nat
  user_count : Nat
  total_rewards : Nat
  bump : Nat
  deriving DecidableEq, Repr

/-- The `UserBalance` account of the secure unsafe-arithmetic program. -/
structure UserBalance where
  owner : Addr
  balance : Nat
  deposits : Nat
  withdrawals : Nat
  bump : Nat
  deriving DecidableEq, Repr

/-- The `ErrorCode` enum of the secure unsafe-arithmetic program. -/
inductive ErrorCode where
  | ArithmeticOverflow
  | ArithmeticUnderflow
  | InsufficientBalance
  | ExceedsMaxDeposit
  | ExceedsMaxRewardRate
  deriving DecidableEq, Repr

/-- The `deposit` instruction handler.  Checks the `MAX_DEPOSIT` limit,
then updates `user_balance.balance`, `user_balance.deposits` and
`vault.total_deposits` with checked addition, in source order.  An error
aborts the transaction: no account is mutated. -/
def deposit (u : UserBalance) (v : VaultState) (amount_to_add : Nat) :
    Except ErrorCode (UserBalance × VaultState) :=
  if ¬ amount_to_add ≤ MAX_DEPOSIT then .error .ExceedsMaxDeposit
  else
    match checkedAdd u.balance amount_to_add with
    | none => .error .ArithmeticOverflow
    | some newBalance =>
      match checkedAdd u.deposits amount_to_add with
      | none => .error .ArithmeticOverflow
      | some newDeposits =>
        match checkedAdd v.total_deposits amount_to_add with
        | none => .error .ArithmeticOverflow
        | some newTotal =>
          .ok ({ u with balance := newBalance, deposits := newDeposits },
               { v with total_deposits := newTotal })

/-- The `withdraw` instruction handler.  Note that its `Withdraw` accounts
context contains only the `user_balance` account: the vault is not read or
written.  It first requires `balance ≥ amount` (`InsufficientBalance`),
then performs a checked subtraction on the balance and a checked addition
on the `withdrawals` counter. -/
def withdraw (u : UserBalance) (amount_to_subtract : Nat) :
    Except ErrorCode UserBalance :=
  if ¬ u.balance ≥ amount_to_subtract then .error .InsufficientBalance
  else
    match checkedSub u.balance amount_to_subtract with
    | none => .error .ArithmeticUnderflow
    | some newBalance =>
      match checkedAdd u.withdrawals amount_to_subtract with
      | none => .error .ArithmeticOverflow
      | some newWithdrawals =>
        .ok { u with balance := newBalance, withdrawals := newWithdrawals }

/-- The `calculate_rewards` instruction handler.  Checks the rate limit,
computes `balance * rate` with checked multiplication, then adds the
reward to `vault.total_rewards` and to `user_balance.balance` with checked
addition. -/
def calculate_rewards (u : UserBalance) (v : VaultState) (reward_rate : Nat) :
    Except ErrorCode (UserBalance × VaultState) :=
  if ¬ reward_rate ≤ MAX_REWARD_RATE then .error .ExceedsMaxRewardRate
  else
    match checkedMul u.balance reward_rate with
    | none => .error .ArithmeticOverflow
    | some reward =>
      match checkedAdd v.total_rewards reward with
      | none => .error .ArithmeticOverflow
      | some newRewards =>
        match checkedAdd u.balance reward with
        | none => .error .ArithmeticOverflow
        | some newBalance =>
          .ok ({ u with balance := newBalance },
               { v with total_rewards := newRewards })

/-- The `initialize_vault` handler: zero-initialised vault. -/
def initialize_vault (authority : Addr) (bump : Nat) : VaultState :=
  { authority := authority, total_deposits := 0, user_count := 0,
    total_rewards := 0, bump := bump }

/-- The state of one vault together with all the `UserBalance` accounts
referencing it, used to express the aggregate-balance claims. -/
structure Bank where
  vault : VaultState
  users : List UserBalance
  deriving DecidableEq, Repr

/-- A deposit or withdraw instruction addressed at the user position of
index `i`, as in the balance-conservation claim. -/
inductive Op where
  | deposit (i : Nat) (amount : Nat)
  | withdraw (i : Nat) (amount : Nat)
  deriving DecidableEq, Repr

/-- Run one instruction against the bank.  A failing instruction aborts
its transaction and leaves every account unchanged, so the bank state is
returned unmodified on `.error`; an instruction naming a position that
does not exist cannot pass the account validation and likewise leaves the
state unchanged. -/
def applyOp (b : Bank) (op : Op) : Bank :=
  match op with
  | .deposit i amount =>
    match b.users[i]? with
    | none => b
    | some u =>
      match deposit u b.vault amount with
      | .error _ => b
      | .ok (u2, v2) => { vault := v2, users := b.users.set i u2 }
  | .withdraw i amount =>
    match b.users[i]? with
    | none => b
    | some u =>
      match withdraw u amount with
      | .error _ => b
      | .ok u2 => { b with users := b.users.set i u2 }

/-- Run a sequence of deposit and withdraw instructions. -/
def runOps (b : Bank) (ops : List Op) : Bank :=
  ops.foldl applyOp b

/-- Sum of the balances of all positions of the bank. -/
def sumBalances (b : Bank) : Nat :=
  (b.users.map UserBalance.balance).sum

/-- Sum of the lifetime deposits of all positions of the bank. -/
def sumDeposits (b : Bank) : Nat :=
  (b.users.map UserBalance.deposits).sum

end Arith

/-! ## Pattern 02: authority/capability model
(`patterns/02-authority-checks/programs/secure/src/lib.rs`) -/

namespace Auth

/-- Maximum number of administrators (`MAX_ADMINS`). -/
def MAX_ADMINS : Nat := 3

/-- The `AdminConfig` account of the secure authority-checks program.
`admin_list` models the fixed-size `[Pubkey; MAX_ADMINS]` array, so its
length is `MAX_ADMINS` in every reachable state. -/
structure AdminConfig where
  super_admin : Addr
  admin_list : List Addr
  admin_count : Nat
  fee_basis_points : Nat
  paused : Bool
  bump : Nat
  deriving DecidableEq, Repr

/-- The `ErrorCode` enum of the secure authority-checks program. -/
inductive ErrorCode where
  | Unauthorized
  | NotSuperAdmin
  | NotAdmin
  | AdminListFull
  | ProtocolPaused
  | CannotRemoveSuperAdmin
  | ManagerNotActive
  | AdminNotFound
  deriving DecidableEq, Repr

/-- The `is_admin` helper: linear scan over the live entries
`admin_list[0..admin_count]` only. -/
def is_admin (admin_list : List Addr) (admin_count : Nat) (key : Addr) : Bool :=
  (admin_list.take admin_count).any (fun admin => admin == key)

/-- The live admin area of a config: the entries
`admin_list[0..admin_count]`. -/
def liveAdmins (c : AdminConfig) : List Addr :=
  c.admin_list.take c.admin_count

/-- The `initialize_config` handler: the super admin is placed in slot 0
of the zeroed admin list and `admin_count` starts at 1; the default fee is
100 basis points and the protocol starts unpaused. -/
def initialize_config (super_admin : Addr) (bump : Nat) : AdminConfig :=
  { super_admin := super_admin,
    admin_list := (List.replicate MAX_ADMINS (0 : Addr)).set 0 super_admin,
    admin_count := 1,
    fee_basis_points := 100,
    paused := false,
    bump := bump }

/-- The `add_admin` instruction.  The Anchor accounts context first checks
the constraint `caller.key() == admin_config.super_admin` (error
`NotSuperAdmin`); the handler then rejects a full list (`AdminListFull`)
and otherwise writes the new admin at index `admin_count` and increments
the count. -/
def add_admin (c : AdminConfig) (caller new_admin : Addr) :
    Except ErrorCode AdminConfig :=
  if ¬ caller = c.super_admin then .error .NotSuperAdmin
  else if c.admin_count ≥ MAX_ADMINS then .error .AdminListFull
  else .ok { c with admin_list := c.admin_list.set c.admin_count new_admin,
                    admin_count := c.admin_count + 1 }

/-- The `remove_admin` instruction.  The Anchor accounts context first
checks `caller.key() == admin_config.super_admin` (`NotSuperAdmin`); the
handler then rejects removal of the super admin
(`CannotRemoveSuperAdmin`); it then scans `admin_list[0..admin_count]` for
the first index holding the target (`AdminNotFound` when absent), shifts
the following live entries one slot to the left, clears the freed slot
`admin_list[admin_count - 1]` to the default key and decrements
`admin_count`.  Removing the first occurrence found by the scan and
closing the gap is `List.eraseIdx` at `List.indexOf` on the live area. -/
def remove_admin (c : AdminConfig) (caller admin_to_remove : Addr) :
    Except ErrorCode AdminConfig :=
  if ¬ caller = c.super_admin then .error .NotSuperAdmin
  else if admin_to_remove = c.super_admin then .error .CannotRemoveSuperAdmin
  else if ¬ admin_to_remove ∈ liveAdmins c then .error .AdminNotFound
  else .ok { c with
    admin_list := (liveAdmins c).eraseIdx ((liveAdmins c).indexOf admin_to_remove) ++ [0] ++
                  c.admin_list.drop c.admin_count,
    admin_count := c.admin_count - 1 }

/-- The `update_fee` instruction.  The accounts context checks
`is_admin(admin_list, admin_count, caller)` (`NotAdmin`); the handler then
assigns `fee_basis_points = new_fee` with no further validation. -/
def update_fee (c : AdminConfig) (caller : Addr) (new_fee : Nat) :
    Except ErrorCode AdminConfig :=
  if ¬ is_admin c.admin_list c.admin_count caller then .error .NotAdmin
  else .ok { c with fee_basis_points := new_fee }

/-- An `add_admin` or `remove_admin` call, with its caller, for stating
the admin-list invariant over call sequences. -/
inductive AuthOp where
  | add (caller new_admin : Addr)
  | remove (caller target : Addr)
  deriving DecidableEq, Repr

/-- Run one admin-list instruction; a failing instruction aborts its
transaction and leaves the config unchanged. -/
def applyAuthOp (c : AdminConfig) (op : AuthOp) : AdminConfig :=
  match op with
  | .add caller a =>
    match add_admin c caller a with
    | .ok c2 => c2
    | .error _ => c
  | .remove caller t =>
    match remove_admin c caller t with
    | .ok c2 => c2
    | .error _ => c

/-- Run a sequence of `add_admin` / `remove_admin` calls. -/
def runAuthOps (c : AdminConfig) (ops : List AuthOp) : AdminConfig :=
  ops.foldl applyAuthOp c

/-- The configuration invariant maintained by the admin-list
instructions: the super admin field is fixed, the array keeps its size,
the live count stays within capacity, and the super admin stays among the
live admins. -/
def AdminInv (super : Addr) (c : AdminConfig) : Prop :=
  c.super_admin = super ∧ c.admin_list.length = MAX_ADMINS ∧
  c.admin_count ≤ MAX_ADMINS ∧ super ∈ liveAdmins c

/-- The result of a successful removal of `target`: the live area loses
its first occurrence of `target` with the remaining admins shifted left in
order, the freed slot is cleared to the default key, the tail beyond the
live area is untouched, and the count is decremented. -/
def removedConfig (c : AdminConfig) (target : Addr) : AdminConfig :=
  { c with admin_list := (liveAdmins c).erase target ++ [0] ++
             c.admin_list.drop c.admin_count,
           admin_count := c.admin_count - 1 }

end Auth

/-! ## Pattern 04: reentrancy guard and external-call protocol
(`patterns/04-cpi-reentrancy/pinocchio-programs/pinocchio-secure/src/lib.rs`) -/

namespace Reentrancy

/-- The `Vault` account of the pinocchio secure CPI-reentrancy program. -/
structure Vault where
  authority : Addr
  balance : Nat
  withdrawals_pending : Nat
  reentrancy_guard : Bool
  bump : Nat
  deriving DecidableEq, Repr

/-- The `UserDeposit` account of the pinocchio secure CPI-reentrancy
program. -/
structure UserDeposit where
  owner : Addr
  amount : Nat
  bump : Nat
  deriving DecidableEq, Repr

/-- The `SecureError` enum of the pinocchio secure CPI-reentrancy program,
together with the `ProgramError::MissingRequiredSignature` returned by the
signer check. -/
inductive SecureError where
  | Unauthorized
  | ArithmeticOverflow
  | InsufficientBalance
  | InsufficientUserBalance
  | ReentrancyDetected
  | MissingRequiredSignature
  deriving DecidableEq, Repr

/-- The persisted contents of the two writable records of a withdrawal:
the vault account bytes and the user-deposit account bytes. -/
structure Records where
  vault : Vault
  user : UserDeposit
  deriving DecidableEq, Repr

/-- The `withdraw` instruction of the pinocchio secure program.  The CPI
(`invoke` of the callback program) is modelled by the function `ext`: it
receives the account contents exactly as serialized at the moment of the
call and returns the account contents at its return (or an error, which
aborts the enclosing transaction).  Order of operations, as in the source:
signer check; reentrancy-guard check (`ReentrancyDetected`); balance, user
balance and owner checks (each of which aborts, reverting all writes);
checked subtraction of the amount from both balances; serialization of the
vault (with the guard set) and the user deposit; the external call; then
reload of the vault, clearing of the guard, and final serialization.  An
`.error` result models the aborted transaction: no record keeps any
intermediate write. -/
def withdraw (ext : Records → Except SecureError Records)
    (s : Records) (authority_is_signer : Bool) (authority : Addr) (amount : Nat) :
    Except SecureError Records :=
  if ¬ authority_is_signer then .error .MissingRequiredSignature
  else if s.vault.reentrancy_guard then .error .ReentrancyDetected
  else if s.vault.balance < amount then .error .InsufficientBalance
  else if s.user.amount < amount then .error .InsufficientUserBalance
  else if ¬ s.user.owner = authority then .error .Unauthorized
  else
    match checkedSub s.vault.balance amount with
    | none => .error .InsufficientBalance
    | some newBalance =>
      match checkedSub s.user.amount amount with
      | none => .error .InsufficientUserBalance
      | some newAmount =>
        match ext { vault := { s.vault with balance := newBalance, reentrancy_guard := true },
                    user := { s.user with amount := newAmount } } with
        | .error e => .error e
        | .ok after =>
          .ok { after with vault := { after.vault with reentrancy_guard := false } }

/-- The record contents serialized immediately before the external call of
a successful `withdraw`: guard set, both balances already decremented. -/
def preCall (s : Records) (amount : Nat) : Records :=
  { vault := { s.vault with balance := s.vault.balance - amount, reentrancy_guard := true },
    user := { s.user with amount := s.user.amount - amount } }

/-- An external call that does not touch the records (the benign callback
target). -/
def extNop : Records → Except SecureError Records := fun s => .ok s

/-- An external callee that re-invokes `withdraw` on the same vault before
the first call returns, observes the rejection of the nested call, and
returns; if the nested call were to succeed, its effects would be kept. -/
def reenterOnce (authority : Addr) (amount : Nat) :
    Records → Except SecureError Records :=
  fun s1 =>
    match withdraw extNop s1 true authority amount with
    | .ok s2 => .ok s2
    | .error _ => .ok s1

end Reentrancy

/-! ## Pattern 05: canonical PDA derivation checks
(`patterns/05-pda-derivation/pinocchio-programs/pinocchio-secure/src/lib.rs`) -/

namespace Pda

/-- The `Treasury` account of the pinocchio secure PDA-derivation
program. -/
structure Treasury where
  authority : Addr
  balance : Nat
  bump : Nat
  deriving DecidableEq, Repr

/-- The `UserDeposit` account of the pinocchio secure PDA-derivation
program. -/
structure UserDeposit where
  owner : Addr
  treasury : Addr
  amount : Nat
  bump : Nat
  deriving DecidableEq, Repr

/-- The `SecureError` enum of the pinocchio secure PDA-derivation program,
together with the `ProgramError` variants its handlers return. -/
inductive SecureError where
  | InvalidPda
  | InvalidBump
  | InvalidTreasury
  | Unauthorized
  | NotInitialized
  | InsufficientFunds
  | MissingRequiredSignature
  | IllegalOwner
  | ArithmeticOverflow
  deriving DecidableEq, Repr

/-- The type of the two PDA-derivation helpers, `derive_treasury_pda` and
`derive_user_deposit_pda`.  Each wraps `find_program_address` (a one-way
syscall whose cryptography is outside this embedding) applied to fixed
seed material plus the listed addresses and the program id, and returns
the canonical `(address, bump)` pair.  The handlers are verified for every
possible derivation function. -/
abbrev DeriveT := Addr → Addr → Addr × Nat

/-- Derivation helper type for the user-deposit PDA (seeds: treasury
address, owner address, program id). -/
abbrev DeriveUD := Addr → Addr → Addr → Addr × Nat

/-- The `deposit` instruction of the pinocchio secure PDA program.  In
source order: signer check; program-ownership checks for both accounts;
re-derivation of the user-deposit PDA from
`(treasury address, depositor, program id)` with address comparison
(`InvalidPda`) and stored-bump comparison (`InvalidBump`); re-derivation
of the treasury PDA from `(treasury.authority, program id)` with the same
two comparisons; relationship check `user_deposit.treasury == treasury`
(`InvalidTreasury`); owner check (`Unauthorized`); then the checked
balance updates.  An error aborts the transaction with no record
mutated. -/
def deposit (derive_treasury_pda : DeriveT) (derive_user_deposit_pda : DeriveUD)
    (program_id : Addr)
    (user_deposit_addr treasury_addr depositor_addr : Addr)
    (depositor_is_signer ud_owned treasury_owned : Bool)
    (ud : UserDeposit) (tre : Treasury) (amount : Nat) :
    Except SecureError (UserDeposit × Treasury) :=
  if ¬ depositor_is_signer then .error .MissingRequiredSignature
  else if ¬ ud_owned then .error .IllegalOwner
  else if ¬ treasury_owned then .error .IllegalOwner
  else if ¬ user_deposit_addr = (derive_user_deposit_pda treasury_addr depositor_addr program_id).1
    then .error .InvalidPda
  else if ¬ ud.bump = (derive_user_deposit_pda treasury_addr depositor_addr program_id).2
    then .error .InvalidBump
  else if ¬ treasury_addr = (derive_treasury_pda tre.authority program_id).1
    then .error .InvalidPda
  else if ¬ tre.bump = (derive_treasury_pda tre.authority program_id).2
    then .error .InvalidBump
  else if ¬ ud.treasury = treasury_addr then .error .InvalidTreasury
  else if ¬ ud.owner = depositor_addr then .error .Unauthorized
  else
    match checkedAdd ud.amount amount with
    | none => .error .ArithmeticOverflow
    | some newAmount =>
      match checkedAdd tre.balance amount with
      | none => .error .ArithmeticOverflow
      | some newBalance =>
        .ok ({ ud with amount := newAmount }, { tre with balance := newBalance })

/-- The `withdraw` instruction of the pinocchio secure PDA program.  The
nine checks in source order: signer; program ownership of both accounts;
user-deposit PDA re-derivation (`InvalidPda`) and canonical-bump
comparison (`InvalidBump`); treasury PDA re-derivation (`InvalidPda`) and
canonical-bump comparison (`InvalidBump`); treasury relationship
(`InvalidTreasury`); owner authorization (`Unauthorized`); sufficient
funds (`InsufficientFunds`); then the checked balance updates. -/
def withdraw (derive_treasury_pda : DeriveT) (derive_user_deposit_pda : DeriveUD)
    (program_id : Addr)
    (user_deposit_addr treasury_addr withdrawer_addr : Addr)
    (withdrawer_is_signer ud_owned treasury_owned : Bool)
    (ud : UserDeposit) (tre : Treasury) (amount : Nat) :
    Except SecureError (UserDeposit × Treasury) :=
  if ¬ withdrawer_is_signer then .error .MissingRequiredSignature
  else if ¬ ud_owned then .error .IllegalOwner
  else if ¬ treasury_owned then .error .IllegalOwner
  else if ¬ user_deposit_addr = (derive_user_deposit_pda treasury_addr withdrawer_addr program_id).1
    then .error .InvalidPda
  else if ¬ ud.bump = (derive_user_deposit_pda treasury_addr withdrawer_addr program_id).2
    then .error .InvalidBump
  else if ¬ treasury_addr = (derive_treasury_pda tre.authority program_id).1
    then .error .InvalidPda
  else if ¬ tre.bump = (derive_treasury_pda tre.authority program_id).2
    then .error .InvalidBump
  else if ¬ ud.treasury = treasury_addr then .error .InvalidTreasury
  else if ¬ ud.owner = withdrawer_addr then .error .Unauthorized
  else if ud.amount < amount then .error .InsufficientFunds
  else
    match checkedSub ud.amount amount with
    | none => .error .ArithmeticOverflow
    | some newAmount =>
      match checkedSub tre.balance amount with
      | none => .error .ArithmeticOverflow
      | some newBalance =>
        .ok ({ ud with amount := newAmount }, { tre with balance := newBalance })

end Pda

/-! ## General helper lemmas -/

/-- Success characterization of `checkedAdd`. -/
theorem checkedAdd_some {a b c : Nat} (h : checkedAdd a b = some c) :
    c = a + b ∧ a + b < U64_MOD := by
  unfold checkedAdd at h
  split at h
  · cases h
    exact ⟨rfl, by assumption⟩
  · cases h

/-- Success characterization of `checkedSub`. -/
theorem checkedSub_some {a b c : Nat} (h : checkedSub a b = some c) :
    c = a - b ∧ b ≤ a := by
  unfold checkedSub at h
  split at h
  · cases h
    exact ⟨rfl, by assumption⟩
  · cases h

/-- Computation rule for `checkedSub` under a sufficient balance. -/
theorem checkedSub_of_le {a b : Nat} (h : b ≤ a) : checkedSub a b = some (a - b) := by
  unfold checkedSub
  simp [h]

/-- Taking one more element after setting the slot just past a prefix
appends the new element to that prefix. -/
theorem take_set_succ {α : Type} (l : List α) (n : Nat) (a : α) (h : n < l.length) :
    (l.set n a).take (n + 1) = l.take n ++ [a] := by
  rw [List.set_eq_take_cons_drop a h, List.take_append_eq_append_take]
  have h1 : (l.take n).length = n := by simp [Nat.le_of_lt h]
  rw [h1]
  have h2 : (l.take n).take (n + 1) = l.take n := by
    rw [List.take_take]
    congr 1
    omega
  rw [h2]
  simp

/-- Effect of `List.set` on the sum of a mapped list, stated without
natural-number subtraction. -/
theorem sum_map_set {α : Type} (f : α → Nat) (l : List α) (i : Nat) (u u2 : α)
    (h : l[i]? = some u) :
    ((l.set i u2).map f).sum + f u = (l.map f).sum + f u2 := by
  induction l generalizing i with
  | nil => simp at h
  | cons x xs ih =>
    cases i with
    | zero =>
      simp at h
      subst h
      simp [List.set]
      omega
    | succ j =>
      simp only [List.getElem?_cons_succ] at h
      have := ih j h
      simp only [List.set_cons_succ, List.map_cons, List.sum_cons]
      omega

/-! ## Characterization lemmas for the pattern 03 handlers -/

/-- A successful `Arith.deposit` adds the amount to the user balance, the
user lifetime deposits and the vault total, and changes nothing else. -/
theorem Arith.deposit_ok {u : Arith.UserBalance} {v : Arith.VaultState} {amt : Nat}
    {u2 : Arith.UserBalance} {v2 : Arith.VaultState}
    (h : Arith.deposit u v amt = .ok (u2, v2)) :
    u2 = { u with balance := u.balance + amt, deposits := u.deposits + amt } ∧
    v2 = { v with total_deposits := v.total_deposits + amt } := by
  unfold Arith.deposit at h
  split at h
  · cases h
  · split at h
    · cases h
    · next nb hnb =>
      split at h
      · cases h
      · next nd hnd =>
        split at h
        · cases h
        · next nt hnt =>
          cases h
          obtain ⟨hb, _⟩ := checkedAdd_some hnb
          obtain ⟨hd, _⟩ := checkedAdd_some hnd
          obtain ⟨ht, _⟩ := checkedAdd_some hnt
          subst hb hd ht
          exact ⟨rfl, rfl⟩

/-- A successful `Arith.withdraw` subtracts the amount from the balance,
adds it to the lifetime withdrawals, and changes nothing else; in
particular the `deposits` field is untouched (and no vault account is even
part of the instruction). -/
theorem Arith.withdraw_ok {u : Arith.UserBalance} {amt : Nat} {u2 : Arith.UserBalance}
    (h : Arith.withdraw u amt = .ok u2) :
    u2 = { u with balance := u.balance - amt, withdrawals := u.withdrawals + amt } ∧
    amt ≤ u.balance := by
  unfold Arith.withdraw at h
  split at h
  · cases h
  · next hge =>
    split at h
    · cases h
    · next nb hnb =>
      split at h
      · cases h
      · next nw hnw =>
        cases h
        obtain ⟨hb, hle⟩ := checkedSub_some hnb
        obtain ⟨hw, _⟩ := checkedAdd_some hnw
        subst hb hw
        exact ⟨rfl, hle⟩

/-- Any single deposit or withdraw instruction preserves the invariant
that the vault total equals the sum of the lifetime deposits of all
positions. -/
theorem Arith.applyOp_deposits_inv (b : Arith.Bank) (op : Arith.Op)
    (h : b.vault.total_deposits = Arith.sumDeposits b) :
    (Arith.applyOp b op).vault.total_deposits = Arith.sumDeposits (Arith.applyOp b op) := by
  cases op with
  | deposit i amt =>
    cases hu : b.users[i]? with
    | none =>
      simp only [Arith.applyOp, hu]
      exact h
    | some u =>
      cases hd : Arith.deposit u b.vault amt with
      | error e =>
        simp only [Arith.applyOp, hu, hd]
        exact h
      | ok p =>
        obtain ⟨u2, v2⟩ := p
        obtain ⟨hu2, hv2⟩ := Arith.deposit_ok hd
        subst hu2 hv2
        simp only [Arith.applyOp, hu, hd]
        have hsum := sum_map_set Arith.UserBalance.deposits b.users i u
          { u with balance := u.balance + amt, deposits := u.deposits + amt } hu
        unfold Arith.sumDeposits at h ⊢
        simp only at hsum ⊢
        omega
  | withdraw i amt =>
    cases hu : b.users[i]? with
    | none =>
      simp only [Arith.applyOp, hu]
      exact h
    | some u =>
      cases hw : Arith.withdraw u amt with
      | error e =>
        simp only [Arith.applyOp, hu, hw]
        exact h
      | ok u2 =>
        obtain ⟨hu2, _⟩ := Arith.withdraw_ok hw
        subst hu2
        simp only [Arith.applyOp, hu, hw]
        have hsum := sum_map_set Arith.UserBalance.deposits b.users i u
          { u with balance := u.balance - amt, withdrawals := u.withdrawals + amt } hu
        unfold Arith.sumDeposits at h ⊢
        simp only at hsum ⊢
        omega

/-- Claim C1, as stated, is FALSE on the code: `withdraw` does not touch
`vault.total_deposits` (its accounts context does not even contain the
vault), so after the successful sequence deposit 100, withdraw 50 on a
fresh vault with one position the vault total is 100 while the sum of the
position balances is 50. -/
theorem claim_C1_counterexample :
    Arith.deposit ⟨7, 0, 0, 0, 0⟩ (Arith.initialize_vault 1 0) 100 =
      .ok (⟨7, 100, 100, 0, 0⟩, ⟨1, 100, 0, 0, 0⟩) ∧
    Arith.withdraw ⟨7, 100, 100, 0, 0⟩ 50 = .ok ⟨7, 50, 100, 50, 0⟩ ∧
    (Arith.runOps ⟨Arith.initialize_vault 1 0, [⟨7, 0, 0, 0, 0⟩]⟩
        [.deposit 0 100, .withdraw 0 50]).vault.total_deposits = 100 ∧
    Arith.sumBalances (Arith.runOps ⟨Arith.initialize_vault 1 0, [⟨7, 0, 0, 0, 0⟩]⟩
        [.deposit 0 100, .withdraw 0 50]) = 50 := by decide

/-- Claim C1, amended: for every sequence of deposit and withdraw
operations on a vault (failed operations leaving all accounts unchanged),
the vault aggregate `VaultState.total_deposits` equals the sum of the
LIFETIME DEPOSITS (`UserBalance.deposits`), not of the current balances,
of all positions referencing the vault, whenever it did initially — in
particular starting from a freshly initialized vault whose positions are
all zeroed. -/
theorem claim_C1_amended (b : Arith.Bank) (ops : List Arith.Op)
    (h : b.vault.total_deposits = Arith.sumDeposits b) :
    (Arith.runOps b ops).vault.total_deposits = Arith.sumDeposits (Arith.runOps b ops) := by
  induction ops generalizing b with
  | nil => simpa [Arith.runOps] using h
  | cons op rest ih =>
    have h1 := Arith.applyOp_deposits_inv b op h
    have h2 : Arith.runOps b (op :: rest) = Arith.runOps (Arith.applyOp b op) rest := by
      simp [Arith.runOps]
    rw [h2]
    exact ih (Arith.applyOp b op) h1

/-- Witness for the amended claim C1 at a concrete bank and operation
sequence. -/
theorem claim_C1_amended_witness :
    (Arith.runOps ⟨Arith.initialize_vault 1 0, [⟨7, 0, 0, 0, 0⟩]⟩
        [.deposit 0 100, .withdraw 0 50]).vault.total_deposits =
    Arith.sumDeposits (Arith.runOps ⟨Arith.initialize_vault 1 0, [⟨7, 0, 0, 0, 0⟩]⟩
        [.deposit 0 100, .withdraw 0 50]) :=
  claim_C1_amended _ _ (by decide)

/-- Claim C2, as stated, is FALSE on the code: `calculate_rewards` adds
the reward to `balance` but not to `deposits`, so a successful
`calculate_rewards` at rate 1 on a position with balance 100 and lifetime
deposits 100 (reachable by a single deposit of 100 into a fresh position)
leaves balance 200 > deposits 100. -/
theorem claim_C2_counterexample :
    Arith.deposit ⟨7, 0, 0, 0, 0⟩ (Arith.initialize_vault 1 0) 100 =
      .ok (⟨7, 100, 100, 0, 0⟩, ⟨1, 100, 0, 0, 0⟩) ∧
    Arith.calculate_rewards ⟨7, 100, 100, 0, 0⟩ ⟨1, 100, 0, 0, 0⟩ 1 =
      .ok (⟨7, 200, 100, 0, 0⟩, ⟨1, 100, 0, 100, 0⟩) ∧
    ¬ (200 : Nat) ≤ 100 := by decide

/-- Claim C2, amended: the invariant `balance ≤ lifetime deposits` is
preserved by every successful `deposit` and every successful `withdraw`,
but not by `calculate_rewards`, which can raise the balance above the
lifetime deposits. -/
theorem claim_C2_amended (u : Arith.UserBalance) (v : Arith.VaultState) (amt1 amt2 : Nat)
    (u2 u3 : Arith.UserBalance) (v2 : Arith.VaultState)
    (h : u.balance ≤ u.deposits) :
    (Arith.deposit u v amt1 = .ok (u2, v2) → u2.balance ≤ u2.deposits) ∧
    (Arith.withdraw u amt2 = .ok u3 → u3.balance ≤ u3.deposits) := by
  constructor
  · intro hd
    obtain ⟨hu2, _⟩ := Arith.deposit_ok hd
    subst hu2
    simp only
    omega
  · intro hw
    obtain ⟨hu3, _⟩ := Arith.withdraw_ok hw
    subst hu3
    simp only
    omega

/-- Witness for the amended claim C2 at a concrete position and amount. -/
theorem claim_C2_amended_witness :
    (Arith.deposit ⟨7, 3, 5, 0, 0⟩ (Arith.initialize_vault 1 0) 10 =
        .ok (⟨7, 13, 15, 0, 0⟩, ⟨1, 10, 0, 0, 0⟩) → (13 : Nat) ≤ 15) ∧
    (Arith.withdraw ⟨7, 3, 5, 0, 0⟩ 2 = .ok ⟨7, 1, 5, 2, 0⟩ → (1 : Nat) ≤ 5) :=
  claim_C2_amended ⟨7, 3, 5, 0, 0⟩ (Arith.initialize_vault 1 0) 10 2
    ⟨7, 13, 15, 0, 0⟩ ⟨7, 1, 5, 2, 0⟩ ⟨1, 10, 0, 0, 0⟩ (by decide)

/-- Claim C7, as stated, is FALSE on the code for one family of inputs:
when the amount itself exceeds `MAX_DEPOSIT`, the deposit-limit check
fires before the checked addition, so an overflowing pair such as
balance = 5, amount = 2^64 - 1 returns `ExceedsMaxDeposit`, not
`ArithmeticOverflow`. -/
theorem claim_C7_counterexample :
    U64_MOD ≤ 5 + (U64_MOD - 1) ∧
    Arith.deposit ⟨7, 5, 0, 0, 0⟩ (Arith.initialize_vault 1 0) (U64_MOD - 1) =
      .error .ExceedsMaxDeposit ∧
    Arith.deposit ⟨7, 5, 0, 0, 0⟩ (Arith.initialize_vault 1 0) (U64_MOD - 1) ≠
      .error .ArithmeticOverflow := by decide

/-- Claim C7, amended: for every pair whose amount passes the
`MAX_DEPOSIT` limit check and whose sum `balance + amount` would leave
the unsigned 64-bit range, `deposit` returns `ArithmeticOverflow` (and,
the transaction aborting, the position balance is unchanged); pairs whose
amount exceeds `MAX_DEPOSIT` fail earlier with `ExceedsMaxDeposit`, also
without mutation.  The spec's concrete case balance = 2^64 - 10,
amount = 20 falls in the first family. -/
theorem claim_C7_amended (u : Arith.UserBalance) (v : Arith.VaultState) (amt : Nat)
    (hmax : amt ≤ Arith.MAX_DEPOSIT) (hover : U64_MOD ≤ u.balance + amt) :
    Arith.deposit u v amt = .error .ArithmeticOverflow := by
  unfold Arith.deposit
  rw [if_neg (not_not_intro hmax)]
  have hnone : checkedAdd u.balance amt = none := by
    unfold checkedAdd
    rw [if_neg (by omega)]
  rw [hnone]

/-- Witness for the amended claim C7 at the spec's concrete case:
balance = 2^64 - 10, amount = 20. -/
theorem claim_C7_amended_witness :
    Arith.deposit ⟨7, U64_MOD - 10, 0, 0, 0⟩ (Arith.initialize_vault 1 0) 20 =
      .error .ArithmeticOverflow :=
  claim_C7_amended ⟨7, U64_MOD - 10, 0, 0, 0⟩ (Arith.initialize_vault 1 0) 20
    (by decide) (by decide)

/-- Claim C8: for every position whose balance is strictly below the
requested amount, `withdraw` returns `InsufficientBalance` from the
balance check itself — before the checked subtraction step is reached (an
underflowing subtraction would return `ArithmeticUnderflow` instead) —
and, the transaction aborting, the balance is unchanged. -/
theorem claim_C8_underflow_guard (u : Arith.UserBalance) (amt : Nat)
    (h : u.balance < amt) :
    Arith.withdraw u amt = .error .InsufficientBalance := by
  unfold Arith.withdraw
  rw [if_pos (by omega)]

/-- Witness for claim C8 at the spec's concrete case: balance = 10,
amount = 20. -/
theorem claim_C8_underflow_guard_witness :
    Arith.withdraw ⟨7, 10, 10, 0, 0⟩ 20 = .error .InsufficientBalance :=
  claim_C8_underflow_guard ⟨7, 10, 10, 0, 0⟩ 20 (by decide)

/-! ## Characterization lemmas for the pattern 02 handlers -/

/-- Unfolding equation of `liveAdmins` on a record literal. -/
theorem Auth.liveAdmins_def (c : Auth.AdminConfig) :
    Auth.liveAdmins c = c.admin_list.take c.admin_count := rfl

/-- A successful `add_admin` was called by the super admin on a non-full
list and appends the new admin at index `admin_count`. -/
theorem Auth.add_admin_ok {c : Auth.AdminConfig} {caller a : Addr} {c2 : Auth.AdminConfig}
    (h : Auth.add_admin c caller a = .ok c2) :
    caller = c.super_admin ∧ c.admin_count < Auth.MAX_ADMINS ∧
    c2 = { c with admin_list := c.admin_list.set c.admin_count a,
                  admin_count := c.admin_count + 1 } := by
  unfold Auth.add_admin at h
  split at h
  · cases h
  · next h1 =>
    split at h
    · cases h
    · next h2 =>
      cases h
      exact ⟨not_not.mp h1, by omega, rfl⟩

/-- A successful `remove_admin` was called by the super admin on a target
that is not the super admin and is present among the live admins; the
result is `removedConfig` (the find-and-shift loop removes the first
occurrence of the target, which is `List.erase` on the live area). -/
theorem Auth.remove_admin_ok {c : Auth.AdminConfig} {caller t : Addr} {c2 : Auth.AdminConfig}
    (h : Auth.remove_admin c caller t = .ok c2) :
    caller = c.super_admin ∧ t ≠ c.super_admin ∧ t ∈ Auth.liveAdmins c ∧
    c2 = Auth.removedConfig c t := by
  unfold Auth.remove_admin at h
  split at h
  · cases h
  · next h1 =>
    split at h
    · cases h
    · next h2 =>
      split at h
      · cases h
      · next h3 =>
        cases h
        refine ⟨not_not.mp h1, h2, not_not.mp h3, ?_⟩
        unfold Auth.removedConfig
        rw [List.eraseIdx_indexOf_eq_erase]

/-- The live area of a `removedConfig` is the live area of the original
config with the first occurrence of the target erased. -/
theorem Auth.liveAdmins_removedConfig (c : Auth.AdminConfig) (t : Addr)
    (hcount : c.admin_count ≤ c.admin_list.length) (hmem : t ∈ Auth.liveAdmins c) :
    Auth.liveAdmins (Auth.removedConfig c t) = (Auth.liveAdmins c).erase t := by
  have hlive_len : (Auth.liveAdmins c).length = c.admin_count := by
    rw [Auth.liveAdmins_def, List.length_take]
    omega
  have herase_len : ((Auth.liveAdmins c).erase t).length = c.admin_count - 1 := by
    have := List.length_erase_add_one hmem
    omega
  show ((Auth.liveAdmins c).erase t ++ [0] ++ c.admin_list.drop c.admin_count).take
    (c.admin_count - 1) = (Auth.liveAdmins c).erase t
  rw [List.append_assoc, List.take_left' herase_len]

/-- One `add_admin` or `remove_admin` call preserves the configuration
invariant. -/
theorem Auth.applyAuthOp_inv (super : Addr) (c : Auth.AdminConfig) (op : Auth.AuthOp)
    (h : Auth.AdminInv super c) : Auth.AdminInv super (Auth.applyAuthOp c op) := by
  obtain ⟨hs, hlen, hcount, hmem⟩ := h
  cases op with
  | add caller a =>
    cases ha : Auth.add_admin c caller a with
    | error e =>
      simp only [Auth.applyAuthOp, ha]
      exact ⟨hs, hlen, hcount, hmem⟩
    | ok c2 =>
      obtain ⟨_, hlt, hc2⟩ := Auth.add_admin_ok ha
      subst hc2
      simp only [Auth.applyAuthOp, ha]
      refine ⟨hs, by simpa using hlen, by show c.admin_count + 1 ≤ _; omega, ?_⟩
      show super ∈ (c.admin_list.set c.admin_count a).take (c.admin_count + 1)
      rw [take_set_succ _ _ _ (by omega)]
      exact List.mem_append_left _ hmem
  | remove caller t =>
    cases hr : Auth.remove_admin c caller t with
    | error e =>
      simp only [Auth.applyAuthOp, hr]
      exact ⟨hs, hlen, hcount, hmem⟩
    | ok c2 =>
      obtain ⟨_, hne, htmem, hc2⟩ := Auth.remove_admin_ok hr
      subst hc2
      simp only [Auth.applyAuthOp, hr]
      have hlive_len : (Auth.liveAdmins c).length = c.admin_count := by
        rw [Auth.liveAdmins_def, List.length_take]
        omega
      have hcount_pos : 1 ≤ c.admin_count := by
        have := List.length_pos.mpr (List.ne_nil_of_mem htmem)
        omega
      have herase_len : ((Auth.liveAdmins c).erase t).length = c.admin_count - 1 := by
        have := List.length_erase_add_one htmem
        omega
      refine ⟨hs, ?_, by show c.admin_count - 1 ≤ _; omega, ?_⟩
      · show ((Auth.liveAdmins c).erase t ++ [0] ++
          c.admin_list.drop c.admin_count).length = Auth.MAX_ADMINS
        simp only [List.length_append, List.length_drop, herase_len, hlen,
          List.length_cons, List.length_nil]
        omega
      · rw [Auth.liveAdmins_removedConfig c t (by omega) htmem]
        rw [List.mem_erase_of_ne (by rw [hs] at hne; exact fun heq => hne heq.symm)]
        exact hmem

/-- A whole sequence of admin-list calls preserves the configuration
invariant. -/
theorem Auth.runAuthOps_inv (super : Addr) (c : Auth.AdminConfig) (ops : List Auth.AuthOp)
    (h : Auth.AdminInv super c) : Auth.AdminInv super (Auth.runAuthOps c ops) := by
  induction ops generalizing c with
  | nil => exact h
  | cons op rest ih =>
    have h2 : Auth.runAuthOps c (op :: rest) = Auth.runAuthOps (Auth.applyAuthOp c op) rest := by
      simp [Auth.runAuthOps]
    rw [h2]
    exact ih _ (Auth.applyAuthOp_inv super c op h)

/-- Claim C5, as stated, is FALSE on the code in its error-code part: when
the caller is not the super admin, the Anchor accounts constraint rejects
`remove_admin` with `NotSuperAdmin` before the handler's
`CannotRemoveSuperAdmin` check is reached.  Here caller 2 is a live admin,
the target is the super admin 1, and the call fails with `NotSuperAdmin`
rather than the claimed `CannotRemoveSuperAdmin`. -/
theorem claim_C5_counterexample :
    Auth.remove_admin ⟨1, [1, 2, 0], 2, 100, false, 0⟩ 2 1 = .error .NotSuperAdmin ∧
    Auth.remove_admin ⟨1, [1, 2, 0], 2, 100, false, 0⟩ 2 1 ≠
      .error .CannotRemoveSuperAdmin := by decide

/-- Claim C5, amended: after any sequence of `add_admin` / `remove_admin`
calls starting from an initialized config, the super admin is always
present among the live admins; and a `remove_admin` whose target is the
super admin always fails — with `CannotRemoveSuperAdmin` when the caller
is the super admin, and with `NotSuperAdmin` (from the authority
constraint, checked first) for any other caller. -/
theorem claim_C5_amended (super : Addr) (bump : Nat) (ops : List Auth.AuthOp)
    (c : Auth.AdminConfig) (caller : Addr) :
    super ∈ Auth.liveAdmins (Auth.runAuthOps (Auth.initialize_config super bump) ops) ∧
    Auth.remove_admin c caller c.super_admin =
      .error (if caller = c.super_admin then .CannotRemoveSuperAdmin else .NotSuperAdmin) := by
  constructor
  · have hinit : Auth.AdminInv super (Auth.initialize_config super bump) := by
      refine ⟨rfl, rfl, by show (1 : Nat) ≤ Auth.MAX_ADMINS; decide, ?_⟩
      show super ∈ [super]
      exact List.mem_singleton.mpr rfl
    exact (Auth.runAuthOps_inv super _ ops hinit).2.2.2
  · unfold Auth.remove_admin
    by_cases hc : caller = c.super_admin
    · rw [if_neg (not_not_intro hc), if_pos rfl, if_pos hc]
    · rw [if_pos hc, if_neg hc]

/-- Claim C9: `remove_admin` invoked by the super admin on a target other
than the super admin removes the (first occurrence of the) target from the
live area `admin_list[0..admin_count]`, preserving the relative order of
the remaining admins (the shift-left loop, i.e. `List.erase` on the live
area), clears the freed slot to the default key, and decrements
`admin_count` (`removedConfig`); when the target is not among the live
admins it fails with `AdminNotFound` and, the transaction aborting, the
config is unchanged. -/
theorem claim_C9_remove_admin (c : Auth.AdminConfig) (target : Addr)
    (hlen : c.admin_list.length = Auth.MAX_ADMINS) (hcount : c.admin_count ≤ Auth.MAX_ADMINS)
    (hne : target ≠ c.super_admin) :
    (target ∉ Auth.liveAdmins c →
      Auth.remove_admin c c.super_admin target = .error .AdminNotFound) ∧
    (target ∈ Auth.liveAdmins c →
      Auth.remove_admin c c.super_admin target = .ok (Auth.removedConfig c target) ∧
      Auth.liveAdmins (Auth.removedConfig c target) = (Auth.liveAdmins c).erase target) := by
  constructor
  · intro habs
    unfold Auth.remove_admin
    rw [if_neg (not_not_intro rfl), if_neg hne, if_pos]
    exact habs
  · intro hmem
    constructor
    · unfold Auth.remove_admin
      rw [if_neg (not_not_intro rfl), if_neg hne, if_neg (not_not_intro hmem)]
      unfold Auth.removedConfig
      rw [List.eraseIdx_indexOf_eq_erase]
    · exact Auth.liveAdmins_removedConfig c target (by omega) hmem

/-- Witness for claim C9: on the full config with super admin 1 and live
admins [1, 2, 3], removal of 2 by the super admin yields [1, 3, 0] with
count 2 (order preserved, slot cleared); removal of the absent 5 fails
with `AdminNotFound`. -/
theorem claim_C9_remove_admin_witness :
    (Auth.remove_admin ⟨1, [1, 2, 3], 3, 100, false, 0⟩ 1 2 =
        .ok (Auth.removedConfig ⟨1, [1, 2, 3], 3, 100, false, 0⟩ 2) ∧
      Auth.liveAdmins (Auth.removedConfig ⟨1, [1, 2, 3], 3, 100, false, 0⟩ 2) = [1, 3]) ∧
    Auth.removedConfig ⟨1, [1, 2, 3], 3, 100, false, 0⟩ 2 = ⟨1, [1, 3, 0], 2, 100, false, 0⟩ ∧
    Auth.remove_admin ⟨1, [1, 2, 3], 3, 100, false, 0⟩ 1 5 = .error .AdminNotFound := by
  refine ⟨?_, by decide, ?_⟩
  · have h := (claim_C9_remove_admin ⟨1, [1, 2, 3], 3, 100, false, 0⟩ 2
      (by decide) (by decide) (by decide)).2 (by decide)
    exact ⟨h.1, by decide⟩
  · exact (claim_C9_remove_admin ⟨1, [1, 2, 3], 3, 100, false, 0⟩ 5
      (by decide) (by decide) (by decide)).1 (by decide)

/-- Claim C10: `update_fee` enforces no upper bound on the new fee.  For
every caller in the live admin area and every 16-bit value (the type of
`new_fee : u16`), including values above 10000 basis points, the call
succeeds and stores exactly the requested fee. -/
theorem claim_C10_update_fee (c : Auth.AdminConfig) (caller : Addr) (new_fee : Nat)
    (hadmin : Auth.is_admin c.admin_list c.admin_count caller = true)
    (hfee : new_fee < 2 ^ 16) :
    Auth.update_fee c caller new_fee = .ok { c with fee_basis_points := new_fee } := by
  have hle : new_fee ≤ 2 ^ 16 - 1 := by omega
  unfold Auth.update_fee
  simp [hadmin]

/-- Witness for claim C10: admin 2 sets the fee to 20000 basis points
(200 percent), above the 10000 basis-point ceiling other limits use. -/
theorem claim_C10_update_fee_witness :
    Auth.update_fee ⟨1, [1, 2, 0], 2, 100, false, 0⟩ 2 20000 =
      .ok ⟨1, [1, 2, 0], 2, 20000, false, 0⟩ :=
  claim_C10_update_fee ⟨1, [1, 2, 0], 2, 100, false, 0⟩ 2 20000 (by decide) (by decide)

/-! ## Lemmas for the pattern 04 withdraw protocol -/

/-- A `withdraw` arriving while the persisted guard is already set aborts
with `ReentrancyDetected` at the very first state check, whatever the
external call would have done and whatever amount was requested; no
balance is read or written on this path. -/
theorem Reentrancy.withdraw_guard_set
    (ext : Reentrancy.Records → Except Reentrancy.SecureError Reentrancy.Records)
    (t : Reentrancy.Records) (authority : Addr) (amount : Nat)
    (ht : t.vault.reentrancy_guard = true) :
    Reentrancy.withdraw ext t true authority amount = .error .ReentrancyDetected := by
  unfold Reentrancy.withdraw
  rw [if_neg (by simp), if_pos ht]

/-- Decomposition of a `withdraw` whose checks pass: the external call
receives exactly the persisted pre-call state (guard set, both balances
already decremented), and the final state is the external call's result
with only the guard cleared. -/
theorem Reentrancy.withdraw_unfold_success
    (ext : Reentrancy.Records → Except Reentrancy.SecureError Reentrancy.Records)
    (s : Reentrancy.Records) (authority : Addr) (amount : Nat)
    (hguard : s.vault.reentrancy_guard = false)
    (hbal : amount ≤ s.vault.balance)
    (huser : amount ≤ s.user.amount)
    (howner : s.user.owner = authority) :
    Reentrancy.withdraw ext s true authority amount =
      (ext (Reentrancy.preCall s amount)).map
        (fun t => { t with vault := { t.vault with reentrancy_guard := false } }) := by
  unfold Reentrancy.withdraw
  rw [if_neg (by simp), if_neg (by simp [hguard]), if_neg (by omega), if_neg (by omega),
    if_neg (not_not_intro howner)]
  split
  · next heq =>
    rw [checkedSub_of_le hbal] at heq
    cases heq
  · next nb heq =>
    obtain ⟨hnb, _⟩ := checkedSub_some heq
    subst hnb
    split
    · next heq2 =>
      rw [checkedSub_of_le huser] at heq2
      cases heq2
    · next na heq2 =>
      obtain ⟨hna, _⟩ := checkedSub_some heq2
      subst hna
      have hpre : ({ vault := { s.vault with balance := s.vault.balance - amount, reentrancy_guard := true },
                     user := { s.user with amount := s.user.amount - amount } } : Reentrancy.Records) =
          Reentrancy.preCall s amount := rfl
      rw [hpre]
      cases hE : ext (Reentrancy.preCall s amount) with
      | error e => rfl
      | ok after => rfl

/-- Claim C3: a `withdraw` that observes the reentrancy guard already set
aborts with `ReentrancyDetected` before reading or writing any balance;
consequently, in the scenario where the external call of a withdraw
re-invokes `withdraw` on the same vault before the first call returns,
the nested call (which sees the persisted pre-call state) is rejected
with `ReentrancyDetected`, and after the outer call completes the vault
balance reflects exactly one withdrawal of the amount, not two. -/
theorem claim_C3_reentrancy_rejection (s : Reentrancy.Records) (authority : Addr) (amount : Nat)
    (hguard : s.vault.reentrancy_guard = false)
    (hbal : amount ≤ s.vault.balance)
    (huser : amount ≤ s.user.amount)
    (howner : s.user.owner = authority) :
    (∀ (ext : Reentrancy.Records → Except Reentrancy.SecureError Reentrancy.Records)
       (t : Reentrancy.Records), t.vault.reentrancy_guard = true →
       Reentrancy.withdraw ext t true authority amount = .error .ReentrancyDetected) ∧
    Reentrancy.withdraw Reentrancy.extNop (Reentrancy.preCall s amount) true authority amount =
      .error .ReentrancyDetected ∧
    Reentrancy.withdraw (Reentrancy.reenterOnce authority amount) s true authority amount =
      .ok { vault := { s.vault with balance := s.vault.balance - amount, reentrancy_guard := false },
            user := { s.user with amount := s.user.amount - amount } } := by
  refine ⟨fun ext t ht => Reentrancy.withdraw_guard_set ext t authority amount ht, ?_, ?_⟩
  · exact Reentrancy.withdraw_guard_set Reentrancy.extNop (Reentrancy.preCall s amount)
      authority amount rfl
  · rw [Reentrancy.withdraw_unfold_success _ s authority amount hguard hbal huser howner]
    unfold Reentrancy.reenterOnce
    rw [Reentrancy.withdraw_guard_set Reentrancy.extNop (Reentrancy.preCall s amount)
      authority amount rfl]
    rfl

/-- Witness for claim C3: vault balance 100, user deposit 80, withdrawal
of 30 whose external call re-invokes `withdraw`; the nested call is
rejected and the final balance is 70, exactly one withdrawal. -/
theorem claim_C3_reentrancy_rejection_witness :
    Reentrancy.withdraw Reentrancy.extNop ⟨⟨9, 100, 0, true, 0⟩, ⟨7, 80, 0⟩⟩ true 7 30 =
      .error .ReentrancyDetected ∧
    Reentrancy.withdraw Reentrancy.extNop
        (Reentrancy.preCall ⟨⟨9, 100, 0, false, 0⟩, ⟨7, 80, 0⟩⟩ 30) true 7 30 =
      .error .ReentrancyDetected ∧
    Reentrancy.withdraw (Reentrancy.reenterOnce 7 30)
        ⟨⟨9, 100, 0, false, 0⟩, ⟨7, 80, 0⟩⟩ true 7 30 =
      .ok ⟨⟨9, 70, 0, false, 0⟩, ⟨7, 50, 0⟩⟩ := by
  have h := claim_C3_reentrancy_rejection ⟨⟨9, 100, 0, false, 0⟩, ⟨7, 80, 0⟩⟩ 7 30
    (by decide) (by decide) (by decide) (by decide)
  exact ⟨h.1 Reentrancy.extNop ⟨⟨9, 100, 0, true, 0⟩, ⟨7, 80, 0⟩⟩ rfl, h.2.1, h.2.2⟩

/-- Claim C4: in every `withdraw` that reaches its external call, the
state the external call observes is the persisted pre-call state — guard
set to true and both the vault balance and the position balance already
decremented by the amount — and the guard is cleared only on the state
the call returns, after it returns.  This is stated as an exact
decomposition of `withdraw` around an arbitrary external call. -/
theorem claim_C4_commit_before_call
    (ext : Reentrancy.Records → Except Reentrancy.SecureError Reentrancy.Records)
    (s : Reentrancy.Records) (authority : Addr) (amount : Nat)
    (hguard : s.vault.reentrancy_guard = false)
    (hbal : amount ≤ s.vault.balance)
    (huser : amount ≤ s.user.amount)
    (howner : s.user.owner = authority) :
    Reentrancy.withdraw ext s true authority amount =
      (ext (Reentrancy.preCall s amount)).map
        (fun t => { t with vault := { t.vault with reentrancy_guard := false } }) ∧
    (Reentrancy.preCall s amount).vault.reentrancy_guard = true ∧
    (Reentrancy.preCall s amount).vault.balance + amount = s.vault.balance ∧
    (Reentrancy.preCall s amount).user.amount + amount = s.user.amount := by
  refine ⟨Reentrancy.withdraw_unfold_success ext s authority amount hguard hbal huser howner,
    rfl, ?_, ?_⟩
  · show s.vault.balance - amount + amount = s.vault.balance
    omega
  · show s.user.amount - amount + amount = s.user.amount
    omega

/-- Witness for claim C4 at a concrete state and a no-op external call. -/
theorem claim_C4_commit_before_call_witness :
    (Reentrancy.withdraw Reentrancy.extNop ⟨⟨9, 100, 0, false, 0⟩, ⟨7, 80, 0⟩⟩ true 7 30 =
      (Reentrancy.extNop (Reentrancy.preCall ⟨⟨9, 100, 0, false, 0⟩, ⟨7, 80, 0⟩⟩ 30)).map
        (fun t => { t with vault := { t.vault with reentrancy_guard := false } })) ∧
    (Reentrancy.preCall ⟨⟨9, 100, 0, false, 0⟩, ⟨7, 80, 0⟩⟩ 30).vault.reentrancy_guard = true ∧
    (Reentrancy.preCall ⟨⟨9, 100, 0, false, 0⟩, ⟨7, 80, 0⟩⟩ 30).vault.balance + 30 = 100 ∧
    (Reentrancy.preCall ⟨⟨9, 100, 0, false, 0⟩, ⟨7, 80, 0⟩⟩ 30).user.amount + 30 = 80 :=
  claim_C4_commit_before_call Reentrancy.extNop ⟨⟨9, 100, 0, false, 0⟩, ⟨7, 80, 0⟩⟩ 7 30
    (by decide) (by decide) (by decide) (by decide)

/-! ## Claim C6: canonical-derivation checks of the pattern 05 handlers -/

/-- Claim C6: both balance-mutating instructions of the secure PDA
program (`deposit` and `withdraw`) re-run the canonical derivation from
the record seeds for every possible derivation function and compare both
the supplied account address and the stored bump against the recomputed
canonical pair, for the user-deposit record and then for the treasury
record: an address mismatch fails with `InvalidPda`, a stored-bump
mismatch fails with `InvalidBump`, and every such failure aborts the
transaction with no record mutated. -/
theorem claim_C6_pda_checks (dT : Pda.DeriveT) (dUD : Pda.DeriveUD)
    (pid udA tA caller : Addr) (ud : Pda.UserDeposit) (tre : Pda.Treasury) (amount : Nat) :
    (udA ≠ (dUD tA caller pid).1 →
      Pda.deposit dT dUD pid udA tA caller true true true ud tre amount = .error .InvalidPda ∧
      Pda.withdraw dT dUD pid udA tA caller true true true ud tre amount = .error .InvalidPda) ∧
    (udA = (dUD tA caller pid).1 → ud.bump ≠ (dUD tA caller pid).2 →
      Pda.deposit dT dUD pid udA tA caller true true true ud tre amount = .error .InvalidBump ∧
      Pda.withdraw dT dUD pid udA tA caller true true true ud tre amount = .error .InvalidBump) ∧
    (udA = (dUD tA caller pid).1 → ud.bump = (dUD tA caller pid).2 →
      tA ≠ (dT tre.authority pid).1 →
      Pda.deposit dT dUD pid udA tA caller true true true ud tre amount = .error .InvalidPda ∧
      Pda.withdraw dT dUD pid udA tA caller true true true ud tre amount = .error .InvalidPda) ∧
    (udA = (dUD tA caller pid).1 → ud.bump = (dUD tA caller pid).2 →
      tA = (dT tre.authority pid).1 → tre.bump ≠ (dT tre.authority pid).2 →
      Pda.deposit dT dUD pid udA tA caller true true true ud tre amount = .error .InvalidBump ∧
      Pda.withdraw dT dUD pid udA tA caller true true true ud tre amount = .error .InvalidBump) := by
  refine ⟨fun h1 => ⟨?_, ?_⟩, fun h1 h2 => ⟨?_, ?_⟩, fun h1 h2 h3 => ⟨?_, ?_⟩,
    fun h1 h2 h3 h4 => ⟨?_, ?_⟩⟩
  · unfold Pda.deposit
    rw [if_neg (by simp), if_neg (by simp), if_neg (by simp), if_pos h1]
  · unfold Pda.withdraw
    rw [if_neg (by simp), if_neg (by simp), if_neg (by simp), if_pos h1]
  · unfold Pda.deposit
    rw [if_neg (by simp), if_neg (by simp), if_neg (by simp), if_neg (not_not_intro h1),
      if_pos h2]
  · unfold Pda.withdraw
    rw [if_neg (by simp), if_neg (by simp), if_neg (by simp), if_neg (not_not_intro h1),
      if_pos h2]
  · unfold Pda.deposit
    rw [if_neg (by simp), if_neg (by simp), if_neg (by simp), if_neg (not_not_intro h1),
      if_neg (not_not_intro h2), if_pos h3]
  · unfold Pda.withdraw
    rw [if_neg (by simp), if_neg (by simp), if_neg (by simp), if_neg (not_not_intro h1),
      if_neg (not_not_intro h2), if_pos h3]
  · unfold Pda.deposit
    rw [if_neg (by simp), if_neg (by simp), if_neg (by simp), if_neg (not_not_intro h1),
      if_neg (not_not_intro h2), if_neg (not_not_intro h3), if_pos h4]
  · unfold Pda.withdraw
    rw [if_neg (by simp), if_neg (by simp), if_neg (by simp), if_neg (not_not_intro h1),
      if_neg (not_not_intro h2), if_neg (not_not_intro h3), if_pos h4]

/-- Witness for claim C6 at a concrete derivation function and concrete
records, hitting the user-deposit address mismatch and the treasury
stored-bump mismatch for both instructions. -/
theorem claim_C6_pda_checks_witness :
    (Pda.deposit (fun a _ => (a + 1000, 254)) (fun t o _ => (t + o, 253)) 5
        999 1201 200 true true true ⟨200, 1201, 10, 253⟩ ⟨201, 50, 254⟩ 40 =
        .error .InvalidPda ∧
      Pda.withdraw (fun a _ => (a + 1000, 254)) (fun t o _ => (t + o, 253)) 5
        999 1201 200 true true true ⟨200, 1201, 10, 253⟩ ⟨201, 50, 254⟩ 40 =
        .error .InvalidPda) ∧
    (Pda.deposit (fun a _ => (a + 1000, 254)) (fun t o _ => (t + o, 253)) 5
        1401 1201 200 true true true ⟨200, 1201, 10, 253⟩ ⟨201, 50, 99⟩ 40 =
        .error .InvalidBump ∧
      Pda.withdraw (fun a _ => (a + 1000, 254)) (fun t o _ => (t + o, 253)) 5
        1401 1201 200 true true true ⟨200, 1201, 10, 253⟩ ⟨201, 50, 99⟩ 40 =
        .error .InvalidBump) := by
  constructor
  · exact (claim_C6_pda_checks (fun a _ => (a + 1000, 254)) (fun t o _ => (t + o, 253)) 5
      999 1201 200 ⟨200, 1201, 10, 253⟩ ⟨201, 50, 254⟩ 40).1 (by decide)
  · exact (claim_C6_pda_checks (fun a _ => (a + 1000, 254)) (fun t o _ => (t + o, 253)) 5
      1401 1201 200 ⟨200, 1201, 10, 253⟩ ⟨201, 50, 99⟩ 40).2.2.2 (by decide) (by decide)
      (by decide) (by decide)
